import Mathlib

/-!
Verification of the statsd trace-processor module
(src/trace_processor/importers/proto/statsd_module.cc).

The module receives trace packets carrying batched statsd atoms,
fans each batch out into one synthetic packet per atom
(`StatsdModule::TokenizePacket`), and later decodes each single-atom
packet (`StatsdModule::ParseTracePacketData` / `ParseAtom`), naming the
atom from a descriptor pool (`GetAtomName`) and emitting key/value
attributes, falling back to wire-type-only inference
(`ParseGenericEvent`) when the descriptor does not know the atom.
-/

namespace StatsdModule

/-! ## The generic binary field walker

Modelled from the spec: the generic binary encoding/decoding primitive
(protozero `ProtoDecoder`) is an external collaborator; given a byte
span it produces a lazy, finite sequence of
(field number, wire type, raw bytes) triples, stopping at the first
undecodable byte.  We model it with standard protobuf wire parsing:
a varint preamble `(fieldNumber <<< 3) ||| wireType` followed by a
varint value, a 4- or 8-byte little-endian value, or a varint length
and that many payload bytes. -/

/-- The four structural wire types the walker recognises; any other
wire-type code aborts the walk. -/
inductive WireType where
  | varint
  | fixed64
  | lengthDelimited
  | fixed32
deriving DecidableEq, Repr

/-- One decoded field: its field number, wire type, numeric value
(varint / fixed32 / fixed64 payload, zero for length-delimited) and
raw byte payload (length-delimited only, empty otherwise). -/
structure RawField where
  id : Nat
  wire : WireType
  value : Nat
  payload : List Nat
deriving DecidableEq, Repr

/-- Modelled from the spec: varint parsing, at most ten bytes, seven
low bits per byte, little-endian groups, truncated to 64 bits.  Fails
(returns `none`) on an empty span or when ten bytes all carry the
continuation bit. -/
def parseVarintGo : Nat → Nat → Nat → List Nat → Option (Nat × List Nat)
  | 0, _, _, _ => none
  | _ + 1, _, _, [] => none
  | fuel + 1, acc, shift, b :: rest =>
    if b % 256 < 128 then some ((acc + b % 256 * 2 ^ shift) % 2 ^ 64, rest)
    else parseVarintGo fuel (acc + b % 128 * 2 ^ shift) (shift + 7) rest

/-- Parse one varint from the head of a byte span. -/
def parseVarint (bs : List Nat) : Option (Nat × List Nat) :=
  parseVarintGo 10 0 0 bs

/-- Little-endian interpretation of a byte span as a natural number. -/
def leValue (bs : List Nat) : Nat :=
  bs.foldr (fun b acc => b % 256 + 256 * acc) 0

/-- Wire-type code from the low three bits of the field preamble. -/
def wireOfCode (c : Nat) : Option WireType :=
  if c = 0 then some WireType.varint
  else if c = 1 then some WireType.fixed64
  else if c = 2 then some WireType.lengthDelimited
  else if c = 5 then some WireType.fixed32
  else none

/-- Modelled from the spec: read one (field number, wire type, value)
triple from the head of a byte span; `none` means the walk stops
(truncated input, field number zero, unknown wire type, or a
length-delimited field longer than the remaining bytes). -/
def readField (bs : List Nat) : Option (RawField × List Nat) :=
  match parseVarint bs with
  | none => none
  | some (preamble, r1) =>
    let fid := preamble / 8 % 2 ^ 32
    if fid = 0 then none
    else
      match wireOfCode (preamble % 8) with
      | none => none
      | some WireType.varint =>
        match parseVarint r1 with
        | none => none
        | some (v, r2) => some (⟨fid, WireType.varint, v, []⟩, r2)
      | some WireType.fixed64 =>
        if 8 ≤ r1.length then
          some (⟨fid, WireType.fixed64, leValue (r1.take 8), []⟩, r1.drop 8)
        else none
      | some WireType.fixed32 =>
        if 4 ≤ r1.length then
          some (⟨fid, WireType.fixed32, leValue (r1.take 4), []⟩, r1.drop 4)
        else none
      | some WireType.lengthDelimited =>
        match parseVarint r1 with
        | none => none
        | some (len, r2) =>
          if len ≤ r2.length then
            some (⟨fid, WireType.lengthDelimited, 0, r2.take len⟩, r2.drop len)
          else none

/-! ## Attribute model (ProtoToArgsParser keys and Variadic values) -/

/-- An attribute key as built by the module: a flat key and a
(possibly qualified) key; the module always builds both from the same
string (`Key{name_str, name_str}`). -/
structure Key where
  flat_key : String
  key : String
deriving DecidableEq, Repr

/-- A symbolic IEEE-754 double value, kept at the bit level: either a
double obtained by widening a 32-bit float with the given bits
(`f.as_float()` then `static_cast<double>`), or a double read directly
from the given 64 bits (`f.as_double()`). -/
inductive FloatRepr where
  | ofF32Bits (bits : Nat)
  | ofF64Bits (bits : Nat)
deriving DecidableEq, Repr

/-- A `Variadic` attribute value as delivered to the inserter
delegate. -/
inductive Variadic where
  | integer (i : Int)
  | unsignedInteger (u : Nat)
  | str (s : String)
  | real (r : FloatRepr)
  | boolean (b : Bool)
  | bytes (bs : List Nat)
  | null
deriving DecidableEq, Repr

/-- One emitted attribute: key plus value. -/
structure Arg where
  key : Key
  value : Variadic
deriving DecidableEq, Repr

/-- The uint64 → int64 reinterpretation performed by
`Field::as_int64()`. -/
def asInt64 (v : Nat) : Int :=
  if v % 2 ^ 64 < 2 ^ 63 then (v % 2 ^ 64 : Nat) else (v % 2 ^ 64 : Nat) - 2 ^ 64

/-- Decoding status (`base::Status`): ok or an error. -/
inductive Status where
  | ok
  | error
deriving DecidableEq, Repr

/-! ## ParseGenericEvent (statsd_module.cc:155-191)

The anonymous-namespace fallback decoder: walk the buffer field by
field and emit one attribute per field, named and typed from the wire
type alone.  The C++ loop terminates because the decoder strictly
advances; we run it on fuel `bs.length + 1`, which `readField_sublen`
shows is always enough. -/

/-- The field-walk loop of `ParseGenericEvent`: one attribute per
decoded field, stopping when `readField` fails. -/
def genericArgsGo : Nat → List Nat → List Arg
  | 0, _ => []
  | fuel + 1, bs =>
    match readField bs with
    | none => []
    | some (f, rest) =>
      (match f.wire with
       | WireType.lengthDelimited =>
         ⟨⟨"field_" ++ toString f.id, "field_" ++ toString f.id⟩,
          Variadic.bytes f.payload⟩
       | WireType.varint =>
         ⟨⟨"field_" ++ toString f.id, "field_" ++ toString f.id⟩,
          Variadic.integer (asInt64 f.value)⟩
       | WireType.fixed32 =>
         ⟨⟨"field_" ++ toString f.id ++ "_assuming_float",
           "field_" ++ toString f.id ++ "_assuming_float"⟩,
          Variadic.real (FloatRepr.ofF32Bits f.value)⟩
       | WireType.fixed64 =>
         ⟨⟨"field_" ++ toString f.id ++ "_assuming_double",
           "field_" ++ toString f.id ++ "_assuming_double"⟩,
          Variadic.real (FloatRepr.ofF64Bits f.value)⟩)
      :: genericArgsGo fuel rest

/-- `ParseGenericEvent`: returns the status (always ok, the function
has no failure path) together with the attributes delivered to the
delegate. -/
def ParseGenericEvent (bs : List Nat) : Status × List Arg :=
  (Status.ok, genericArgsGo (bs.length + 1) bs)

/-- The sequence of fields the walker yields on a byte span (the
triples of the spec's generic binary field walker), with the same fuel
as the decoding loop. -/
def fieldsOfGo : Nat → List Nat → List RawField
  | 0, _ => []
  | fuel + 1, bs =>
    match readField bs with
    | none => []
    | some (f, rest) => f :: fieldsOfGo fuel rest

/-- All fields the walker yields on a byte span. -/
def fieldsOf (bs : List Nat) : List RawField :=
  fieldsOfGo (bs.length + 1) bs

/-! ## Schema catalog (PoolAndDescriptor, statsd_module.cc:198-206) -/

/-- Declared semantic type of a schema field, used by the reflective
decoder to pick the typed accessor. -/
inductive DeclType where
  | tInt
  | tUint
  | tString
  | tDouble
  | tBool
  | tBytes
deriving DecidableEq, Repr

/-- Field metadata from the descriptor pool. -/
structure FieldDescriptor where
  name : String
  ftype : DeclType
deriving DecidableEq, Repr

/-- Association-list lookup, modelling `FlatHashMap::Find` /
`std::unordered_map::find` on a field-number keyed map. -/
def lookupNat {β : Type} : Nat → List (Nat × β) → Option β
  | _, [] => none
  | k, (k2, v) :: rest => if k = k2 then some v else lookupNat k rest

/-- A message descriptor: field number to field metadata. -/
abbrev Descriptor : Type := List (Nat × FieldDescriptor)

/-- `PoolAndDescriptor`: the loaded pool's root-type descriptor, or
`none` when `FindDescriptorIdx` failed for the root type name
(catalog unavailable). -/
structure PoolAndDescriptor where
  descriptor : Option Descriptor
deriving DecidableEq

/-! ## Module state and statistics -/

/-- The two statistics counters this module increments. -/
structure StatsCounters where
  atom_timestamp_missing : Nat
  atom_unknown : Nat
deriving DecidableEq, Repr

/-- Increment `stats::atom_unknown`. -/
def bumpUnknown (s : StatsCounters) : StatsCounters :=
  ⟨s.atom_timestamp_missing, s.atom_unknown + 1⟩

/-- Add `n` to `stats::atom_timestamp_missing`. -/
def bumpMissing (s : StatsCounters) (n : Nat) : StatsCounters :=
  ⟨s.atom_timestamp_missing + n, s.atom_unknown⟩

/-- Mutable per-instance state of `StatsdModule`: the atom-name cache
`atom_names_`, the statistics counters (storage collaborator), and the
lazily interned track-set handle `track_set_id_`. -/
structure ModuleState where
  atom_names : List (Nat × String)
  stats : StatsCounters
  track_set_id : Option Nat
deriving DecidableEq, Repr

/-- The sentinel name interned when the atom descriptor could not be
loaded (statsd_module.cc:328). -/
def sentinelAtomName : String := "Could not load atom descriptor"

/-- `StatsdModule::GetAtomName` (statsd_module.cc:323-345): cached
name, or else resolve against the descriptor (declared field name, or
the placeholder `atom_<tag>`) and cache the result; with no descriptor,
bump `atom_unknown` and return the sentinel without caching.  The
third component records whether the catalog was consulted (the cache
was missed). -/
def GetAtomName (pool : PoolAndDescriptor) (st : ModuleState) (fid : Nat) :
    String × ModuleState × Bool :=
  match lookupNat fid st.atom_names with
  | some n => (n, st, false)
  | none =>
    match pool.descriptor with
    | none => (sentinelAtomName, ⟨st.atom_names, bumpUnknown st.stats, st.track_set_id⟩, true)
    | some d =>
      let n := match lookupNat fid d with
        | some fd => fd.name
        | none => "atom_" ++ toString fid
      (n, ⟨st.atom_names ++ [(fid, n)], st.stats, st.track_set_id⟩, true)

/-- `StatsdModule::InternAsyncTrackSetId` (statsd_module.cc:347-354):
memoise the track-set handle on first use (its concrete value comes
from the external track-set tracker; only its presence matters here). -/
def internTrackSet (st : ModuleState) : ModuleState :=
  match st.track_set_id with
  | some _ => st
  | none => ⟨st.atom_names, st.stats, some 0⟩

/-! ## Reflective message decoder (external ProtoToArgsParser) -/

/-- Modelled from the spec: the typed accessor dispatched for one
schema-resolved field by the reflective message decoder
(`util::ProtoToArgsParser`, an external collaborator whose code is not
part of this module): the value is produced from the field according
to its declared semantic type. -/
def declValue (t : DeclType) (f : RawField) : Variadic :=
  match t with
  | DeclType.tInt => Variadic.integer (asInt64 f.value)
  | DeclType.tUint => Variadic.unsignedInteger (f.value % 2 ^ 64)
  | DeclType.tString => Variadic.str (String.mk (f.payload.map (fun b => Char.ofNat (b % 256))))
  | DeclType.tDouble => Variadic.real (FloatRepr.ofF64Bits f.value)
  | DeclType.tBool => Variadic.boolean (f.value % 2 ^ 64 ≠ 0)
  | DeclType.tBytes => Variadic.bytes f.payload

/-- Modelled from the spec: `util::ProtoToArgsParser::ParseMessage`,
the reflective message decoder.  For each field of the payload, the
field number is resolved against the descriptor; a resolved field is
reported under its declared name (as both flat key and key) with the
typed accessor for its declared type, an unresolved field falls back
to wire-type-only inference for that field.  It reports a status; no
failure condition arises on this path. -/
def ParseMessage (d : Descriptor) (bs : List Nat) : Status × List Arg :=
  (Status.ok,
   (fieldsOf bs).map (fun f =>
     match lookupNat f.id d with
     | some fd => ⟨⟨fd.name, fd.name⟩, declValue fd.ftype f⟩
     | none =>
       match f.wire with
       | WireType.lengthDelimited =>
         ⟨⟨"field_" ++ toString f.id, "field_" ++ toString f.id⟩,
          Variadic.bytes f.payload⟩
       | WireType.varint =>
         ⟨⟨"field_" ++ toString f.id, "field_" ++ toString f.id⟩,
          Variadic.integer (asInt64 f.value)⟩
       | WireType.fixed32 =>
         ⟨⟨"field_" ++ toString f.id ++ "_assuming_float",
           "field_" ++ toString f.id ++ "_assuming_float"⟩,
          Variadic.real (FloatRepr.ofF32Bits f.value)⟩
       | WireType.fixed64 =>
         ⟨⟨"field_" ++ toString f.id ++ "_assuming_double",
           "field_" ++ toString f.id ++ "_assuming_double"⟩,
          Variadic.real (FloatRepr.ofF64Bits f.value)⟩))

/-! ## ParseAtom (statsd_module.cc:273-321) -/

/-- How a `ParseAtom` call ends: normally, or by dereferencing the
absent descriptor at `pool_.descriptor()->fields()`
(statsd_module.cc:300), which is a crash (undefined behaviour on a
null pointer). -/
inductive Outcome where
  | ok
  | crash
deriving DecidableEq, Repr

/-- Result of one `ParseAtom` call: the module state afterwards, the
names of the attribute-collection scopes (slices) successfully opened,
the attributes emitted, and how the call ended. -/
structure ParseAtomResult where
  state : ModuleState
  opened : List String
  attrs : List Arg
  outcome : Outcome
deriving DecidableEq, Repr

/-- The first field number of a payload decoded as a tagged union
(statsd_module.cc:281-286): zero when no valid field is present. -/
def firstFieldId (bs : List Nat) : Nat :=
  match readField bs with
  | some (f, _) => f.id
  | none => 0

/-- `field.as_bytes()` on the first field (statsd_module.cc:312): the
payload for a length-delimited field, the empty span otherwise
(`Field` stores no span for scalar fields, and an invalid field has
size zero). -/
def firstFieldBytes (bs : List Nat) : List Nat :=
  match readField bs with
  | some (f, _) => if f.wire = WireType.lengthDelimited then f.payload else []
  | none => []

/-- `StatsdModule::ParseAtom` (statsd_module.cc:273-321).  `sliceOk`
is the external slice tracker's answer to `Scoped` (whether the
attribute-collection scope can be opened). -/
def ParseAtom (pool : PoolAndDescriptor) (sliceOk : Bool) (st : ModuleState)
    (nested : List Nat) : ParseAtomResult :=
  let nfid := firstFieldId nested
  let g := GetAtomName pool st nfid
  let atomName := g.1
  let st2 := internTrackSet g.2.1
  if sliceOk then
    match pool.descriptor with
    | none =>
      -- statsd_module.cc:300 dereferences pool_.descriptor() with no
      -- null check: with the catalog unavailable this is a crash.
      ⟨st2, [atomName], [], Outcome.crash⟩
    | some d =>
      match lookupNat nfid d with
      | none =>
        let st3 : ModuleState :=
          if nfid < 100000 then ⟨st2.atom_names, bumpUnknown st2.stats, st2.track_set_id⟩
          else st2
        let pr := ParseGenericEvent (firstFieldBytes nested)
        let st4 : ModuleState :=
          if pr.1 = Status.ok then st3
          else ⟨st3.atom_names, bumpUnknown st3.stats, st3.track_set_id⟩
        ⟨st4, [atomName], pr.2, Outcome.ok⟩
      | some _ =>
        let pr := ParseMessage d nested
        let st4 : ModuleState :=
          if pr.1 = Status.ok then st2
          else ⟨st2.atom_names, bumpUnknown st2.stats, st2.track_set_id⟩
        ⟨st4, [atomName], pr.2, Outcome.ok⟩
  else
    ⟨st2, [], [], Outcome.ok⟩

/-! ## TokenizePacket and ParseTracePacketData
(statsd_module.cc:219-271) -/

/-- Modelled from the spec: the field tag of the statsd-atom field on
the outer trace packet (`TracePacket::kStatsdAtomFieldNumber`); only
its identity is ever used by this module. -/
def kStatsdAtomFieldNumber : Nat := 72

/-- The decoded carrier (`StatsdAtom` message): the repeated atom
payloads and the parallel repeated explicit timestamps. -/
structure StatsdAtomMsg where
  atoms : List (List Nat)
  timestamps : List Int
deriving DecidableEq, Repr

/-- A synthetic trace packet forged by the fan-out step: the packet
timestamp and the atom payloads of its statsd-atom field. -/
structure ForgedPacket where
  timestamp : Int
  atoms : List (List Nat)
deriving DecidableEq, Repr

/-- `ModuleResult` of the tokenizer. -/
inductive ModuleResult where
  | Ignored
  | Handled
deriving DecidableEq, Repr

/-- Forge the synthetic single-atom packet pushed to the sorter
(statsd_module.cc:239-251): timestamp set to the resolved atom
timestamp and exactly one atom appended. -/
def forge (t : Int) (p : List Nat) : ForgedPacket := ⟨t, [p]⟩

/-- The fan-out loop of `TokenizePacket` (statsd_module.cc:229-252):
consume one explicit timestamp per atom while any remain, otherwise
fall back to the packet timestamp and bump
`stats::atom_timestamp_missing`; push `(timestamp, forged packet)` to
the sorter for every atom, in order. -/
def tokenizeGo : List (List Nat) → List Int → Int → StatsCounters →
    List (Int × ForgedPacket) × StatsCounters
  | [], _, _, s => ([], s)
  | p :: ps, t :: ts, tR, s =>
    let r := tokenizeGo ps ts tR s
    ((t, forge t p) :: r.1, r.2)
  | p :: ps, [], tR, s =>
    let r := tokenizeGo ps [] tR (bumpMissing s 1)
    ((tR, forge tR p) :: r.1, r.2)

/-- `StatsdModule::TokenizePacket` (statsd_module.cc:219-255): ignore
packets whose populated field is not the statsd-atom field; otherwise
fan the carrier out, returning the sorter pushes and the updated
state. -/
def TokenizePacket (fieldId : Nat) (msg : StatsdAtomMsg) (packetTs : Int)
    (st : ModuleState) : ModuleResult × List (Int × ForgedPacket) × ModuleState :=
  if fieldId ≠ kStatsdAtomFieldNumber then (ModuleResult.Ignored, [], st)
  else
    let r := tokenizeGo msg.atoms msg.timestamps packetTs st.stats
    (ModuleResult.Handled, r.1, ⟨st.atom_names, r.2, st.track_set_id⟩)

/-- `StatsdModule::ParseTracePacketData` (statsd_module.cc:257-271):
return immediately on a foreign field id; otherwise `PERFETTO_CHECK`
that the packet carries exactly one atom (`none` models the fatal
check firing) and parse it. -/
def ParseTracePacketData (pool : PoolAndDescriptor) (sliceOk : Bool)
    (fieldId : Nat) (msg : StatsdAtomMsg) (st : ModuleState) :
    Option ParseAtomResult :=
  if fieldId ≠ kStatsdAtomFieldNumber then some ⟨st, [], [], Outcome.ok⟩
  else
    match msg.atoms with
    | [a] => some (ParseAtom pool sliceOk st a)
    | _ => none

/-- Written from the spec's words (§4.4), for comparison with
`TokenizePacket`: the fan-out pairs payload `i` with explicit
timestamp `i` while unconsumed entries remain and otherwise with the
record-level timestamp, emitting one synthetic envelope per payload in
the original payload order. -/
def fanOutSpec (ps : List (List Nat)) (tss : List Int) (tR : Int) :
    List (Int × ForgedPacket) :=
  List.ofFn (fun i : Fin ps.length =>
    let t := tss.getD i tR
    (t, forge t (ps.get i)))

/-- A fresh module state: empty name cache, zeroed counters, no
track-set handle yet. -/
def initState : ModuleState := ⟨[], ⟨0, 0⟩, none⟩

/-- The display name `GetAtomName` resolves, as a function of the
name cache alone (the part of the module state it reads). -/
def atomNameOf (pool : PoolAndDescriptor) (cache : List (Nat × String))
    (fid : Nat) : String :=
  match lookupNat fid cache with
  | some n => n
  | none =>
    match pool.descriptor with
    | none => sentinelAtomName
    | some d =>
      match lookupNat fid d with
      | some fd => fd.name
      | none => "atom_" ++ toString fid

/-! ## Lemmas about the field walker -/

theorem parseVarintGo_sublen {fuel acc shift : Nat} {bs rest : List Nat}
    {v : Nat} (h : parseVarintGo fuel acc shift bs = some (v, rest)) :
    rest.length < bs.length := by
  induction fuel generalizing acc shift bs with
  | zero => simp [parseVarintGo] at h
  | succ n ih =>
    cases bs with
    | nil => simp [parseVarintGo] at h
    | cons b tl =>
      simp only [parseVarintGo] at h
      by_cases hb : b % 256 < 128
      · simp only [hb, if_pos] at h
        obtain ⟨-, h2⟩ := Prod.mk.injEq .. ▸ Option.some.injEq .. ▸ h
        simp [← h2]
      · simp only [hb, if_neg, not_false_iff] at h
        exact Nat.lt_trans (ih h) (Nat.lt_succ_self _)

theorem parseVarint_sublen {bs rest : List Nat} {v : Nat}
    (h : parseVarint bs = some (v, rest)) : rest.length < bs.length :=
  parseVarintGo_sublen h

theorem readField_sublen {bs rest : List Nat} {f : RawField}
    (h : readField bs = some (f, rest)) : rest.length < bs.length := by
  unfold readField at h
  cases h1 : parseVarint bs with
  | none => rw [h1] at h; exact absurd h (by simp)
  | some pr =>
    obtain ⟨preamble, r1⟩ := pr
    rw [h1] at h
    simp only at h
    have hr1 : r1.length < bs.length := parseVarint_sublen h1
    by_cases hz : preamble / 8 % 2 ^ 32 = 0
    · rw [if_pos hz] at h; exact absurd h (by simp)
    · rw [if_neg hz] at h
      cases hw : wireOfCode (preamble % 8) with
      | none => rw [hw] at h; exact absurd h (by simp)
      | some w =>
        rw [hw] at h
        cases w with
        | varint =>
          cases h2 : parseVarint r1 with
          | none => rw [h2] at h; exact absurd h (by simp)
          | some pr2 =>
            obtain ⟨v2, r2⟩ := pr2
            rw [h2] at h
            simp only [Option.some.injEq, Prod.mk.injEq] at h
            rw [← h.2]
            exact Nat.lt_trans (parseVarint_sublen h2) hr1
        | fixed64 =>
          by_cases hl : 8 ≤ r1.length
          · rw [if_pos hl] at h
            simp only [Option.some.injEq, Prod.mk.injEq] at h
            rw [← h.2]
            exact Nat.lt_of_le_of_lt (by simp) hr1
          · rw [if_neg hl] at h; exact absurd h (by simp)
        | fixed32 =>
          by_cases hl : 4 ≤ r1.length
          · rw [if_pos hl] at h
            simp only [Option.some.injEq, Prod.mk.injEq] at h
            rw [← h.2]
            exact Nat.lt_of_le_of_lt (by simp) hr1
          · rw [if_neg hl] at h; exact absurd h (by simp)
        | lengthDelimited =>
          cases h2 : parseVarint r1 with
          | none => rw [h2] at h; exact absurd h (by simp)
          | some pr2 =>
            obtain ⟨len, r2⟩ := pr2
            rw [h2] at h
            by_cases hl : len ≤ r2.length
            · simp only [hl, if_true, Option.some.injEq, Prod.mk.injEq] at h
              rw [← h.2]
              exact Nat.lt_trans (Nat.lt_of_le_of_lt (by simp)
                (parseVarint_sublen h2)) hr1
            · simp only [hl, if_false] at h
              exact absurd h (by simp)


/-! ## Lemmas about the fan-out step -/

theorem tokenizeGo_fst (ps : List (List Nat)) (tss : List Int) (tR : Int)
    (s : StatsCounters) : (tokenizeGo ps tss tR s).1 = fanOutSpec ps tss tR := by
  induction ps generalizing tss s with
  | nil => cases tss <;> simp [tokenizeGo, fanOutSpec]
  | cons p ps ih =>
    cases tss with
    | nil =>
      simp only [tokenizeGo, fanOutSpec, List.ofFn_succ, List.get, List.getD_nil,
        Fin.val_succ]
      refine congrArg _ ?_
      simpa [fanOutSpec, List.getD_nil] using ih [] (bumpMissing s 1)
    | cons t ts =>
      simp only [tokenizeGo, fanOutSpec, List.ofFn_succ, List.get,
        List.getD_cons_zero, List.getD_cons_succ, Fin.val_succ]
      refine congrArg _ ?_
      simpa [fanOutSpec] using ih ts s

theorem tokenizeGo_snd (ps : List (List Nat)) (tss : List Int) (tR : Int)
    (s : StatsCounters) :
    (tokenizeGo ps tss tR s).2 = bumpMissing s (ps.length - min ps.length tss.length) := by
  induction ps generalizing tss s with
  | nil => cases tss <;> simp [tokenizeGo, bumpMissing]
  | cons p ps ih =>
    cases tss with
    | nil =>
      simp only [tokenizeGo, ih, bumpMissing, List.length_cons, List.length_nil]
      congr 1
      omega
    | cons t ts =>
      simp only [tokenizeGo, ih, bumpMissing, List.length_cons]
      congr 1
      omega

/-- C2: For every carrier envelope, the fan-out emits one synthetic
envelope per payload in the original order, pairing payload `i` with
explicit timestamp `i` while unconsumed entries remain and otherwise
with the record-level timestamp (`fanOutSpec`), adding one
`atom_timestamp_missing` increment per payload beyond the explicit
timestamps; in particular payloads `[p0, p1, p2]` with explicit
timestamps `[t0, t1]` and record timestamp `tR2` produce exactly
`[(p0, t0), (p1, t1), (p2, tR2)]` with the counter bumped once. -/
theorem statsd_c2 (ps : List (List Nat)) (tss : List Int) (tR : Int)
    (st : ModuleState) (p0 p1 p2 : List Nat) (t0 t1 tR2 : Int)
    (st2 : ModuleState) :
    TokenizePacket kStatsdAtomFieldNumber ⟨ps, tss⟩ tR st
      = (ModuleResult.Handled, fanOutSpec ps tss tR,
         ⟨st.atom_names, bumpMissing st.stats (ps.length - min ps.length tss.length),
          st.track_set_id⟩)
    ∧ TokenizePacket kStatsdAtomFieldNumber ⟨[p0, p1, p2], [t0, t1]⟩ tR2 st2
      = (ModuleResult.Handled,
         [(t0, forge t0 p0), (t1, forge t1 p1), (tR2, forge tR2 p2)],
         ⟨st2.atom_names, bumpMissing st2.stats 1, st2.track_set_id⟩) := by
  constructor
  · simp [TokenizePacket, tokenizeGo_fst, tokenizeGo_snd]
  · simp [TokenizePacket, tokenizeGo, bumpMissing]

/-- C6: Every synthetic envelope the fan-out produces carries exactly
one payload, its packet timestamp equal to the sorter timestamp, and
feeding it back to the parse stage never fires the fatal check; while
the parse stage is fatal exactly on statsd packets whose atom count is
not one. -/
theorem statsd_c6 (pool : PoolAndDescriptor) (sliceOk : Bool)
    (msg : StatsdAtomMsg) (tR : Int) (st st2 : ModuleState) :
    (∀ x, x ∈ (TokenizePacket kStatsdAtomFieldNumber msg tR st).2.1 →
       (∃ p, x.2.atoms = [p]) ∧ x.2.timestamp = x.1 ∧
       ParseTracePacketData pool sliceOk kStatsdAtomFieldNumber ⟨x.2.atoms, []⟩ st2 ≠ none)
    ∧ (ParseTracePacketData pool sliceOk kStatsdAtomFieldNumber msg st2 = none
       ↔ msg.atoms.length ≠ 1) := by
  constructor
  · intro x hx
    have hx2 : x ∈ fanOutSpec msg.atoms msg.timestamps tR := by
      simpa [TokenizePacket, tokenizeGo_fst] using hx
    rw [fanOutSpec, List.mem_ofFn] at hx2
    obtain ⟨i, hi⟩ := hx2
    refine ⟨⟨msg.atoms.get i, ?_⟩, ?_, ?_⟩
    · rw [← hi]; rfl
    · rw [← hi]; rfl
    · rw [← hi]
      simp [ParseTracePacketData, forge]
  · rcases hma : msg.atoms with _ | ⟨a, _ | ⟨b, rest⟩⟩ <;>
      simp [ParseTracePacketData, hma]

/-- Witness for C6 at a concrete carrier: two payloads, one explicit
timestamp; additionally a two-atom statsd packet makes the parse stage
fatal. -/
theorem statsd_c6_witness :
    ((10, forge 10 [8, 1]) ∈
       (TokenizePacket kStatsdAtomFieldNumber ⟨[[8, 1], [16, 2]], [10]⟩ 99 initState).2.1
     ∧ (∃ p, (forge 10 [8, 1]).atoms = [p])
     ∧ (forge 10 [8, 1]).timestamp = 10
     ∧ ParseTracePacketData ⟨some []⟩ true kStatsdAtomFieldNumber
         ⟨(forge 10 [8, 1]).atoms, []⟩ initState ≠ none)
    ∧ (ParseTracePacketData ⟨some []⟩ true kStatsdAtomFieldNumber
         ⟨[[8, 1], [16, 2]], []⟩ initState = none ↔ ([[8, 1], [16, 2]] : List (List Nat)).length ≠ 1) := by
  have h := statsd_c6 ⟨some []⟩ true ⟨[[8, 1], [16, 2]], [10]⟩ 99 initState initState
  have hm : (10, forge 10 [8, 1]) ∈
      (TokenizePacket kStatsdAtomFieldNumber ⟨[[8, 1], [16, 2]], [10]⟩ 99 initState).2.1 := by
    decide
  have h1 := h.1 (10, forge 10 [8, 1]) hm
  exact ⟨⟨hm, h1.1, h1.2.1, h1.2.2⟩,
    (statsd_c6 ⟨some []⟩ true ⟨[[8, 1], [16, 2]], []⟩ 99 initState initState).2⟩

/-- C10: A packet whose populated field is not the statsd-atom field
is ignored by the tokenizer and returned from unchanged by the parse
stage: no sorter pushes, no counter increments, no scope, and the name
cache and track-set handle untouched. -/
theorem statsd_c10 (fieldId : Nat) (h : fieldId ≠ kStatsdAtomFieldNumber)
    (pool : PoolAndDescriptor) (sliceOk : Bool) (msg : StatsdAtomMsg)
    (tR : Int) (st st2 : ModuleState) :
    TokenizePacket fieldId msg tR st = (ModuleResult.Ignored, [], st)
    ∧ ParseTracePacketData pool sliceOk fieldId msg st2
        = some ⟨st2, [], [], Outcome.ok⟩ := by
  constructor <;> simp [TokenizePacket, ParseTracePacketData, h]

/-- Witness for C10 at field id 73. -/
theorem statsd_c10_witness :
    (73 ≠ kStatsdAtomFieldNumber)
    ∧ TokenizePacket 73 ⟨[[8, 1]], []⟩ 5 initState = (ModuleResult.Ignored, [], initState)
    ∧ ParseTracePacketData ⟨none⟩ true 73 ⟨[[8, 1]], []⟩ initState
        = some ⟨initState, [], [], Outcome.ok⟩ := by
  have h := statsd_c10 73 (by decide) ⟨none⟩ true ⟨[[8, 1]], []⟩ 5 initState initState
  exact ⟨by decide, h.1, h.2⟩

/-! ## Lemmas about name resolution -/

theorem lookupNat_append_none {β : Type} (k : Nat) (l1 l2 : List (Nat × β))
    (h : lookupNat k l1 = none) : lookupNat k (l1 ++ l2) = lookupNat k l2 := by
  induction l1 with
  | nil => simp
  | cons kv rest ih =>
    obtain ⟨k2, v⟩ := kv
    by_cases hk : k = k2
    · simp [lookupNat, hk] at h
    · simp only [List.cons_append, lookupNat, hk, if_neg, not_false_iff] at h ⊢
      exact ih h

theorem getAtomName_fst (pool : PoolAndDescriptor) (st : ModuleState)
    (fid : Nat) : (GetAtomName pool st fid).1 = atomNameOf pool st.atom_names fid := by
  cases h : lookupNat fid st.atom_names with
  | some n => simp [GetAtomName, atomNameOf, h]
  | none =>
    cases hd : pool.descriptor with
    | none => simp [GetAtomName, atomNameOf, h, hd]
    | some d => cases hl : lookupNat fid d <;> simp [GetAtomName, atomNameOf, h, hd, hl]

theorem getAtomName_names (pool : PoolAndDescriptor) (st : ModuleState)
    (fid : Nat) :
    ((GetAtomName pool st fid).2.1).atom_names = st.atom_names ∨
    (lookupNat fid st.atom_names = none ∧
     ((GetAtomName pool st fid).2.1).atom_names
       = st.atom_names ++ [(fid, atomNameOf pool st.atom_names fid)]) := by
  cases h : lookupNat fid st.atom_names with
  | some n => left; simp [GetAtomName, h]
  | none =>
    cases hd : pool.descriptor with
    | none => left; simp [GetAtomName, h, hd]
    | some d =>
      right
      refine ⟨rfl, ?_⟩
      cases hl : lookupNat fid d <;> simp [GetAtomName, atomNameOf, h, hd, hl]

theorem atomNameOf_extend (pool : PoolAndDescriptor)
    (cache : List (Nat × String)) (fid : Nat)
    (h : lookupNat fid cache = none) :
    atomNameOf pool (cache ++ [(fid, atomNameOf pool cache fid)]) fid
      = atomNameOf pool cache fid := by
  conv_lhs => rw [atomNameOf]
  rw [lookupNat_append_none fid cache _ h]
  simp [lookupNat]

theorem atomNameOf_after (pool : PoolAndDescriptor) (st : ModuleState)
    (fid : Nat) :
    atomNameOf pool ((GetAtomName pool st fid).2.1).atom_names fid
      = atomNameOf pool st.atom_names fid := by
  rcases getAtomName_names pool st fid with h | ⟨hc, h⟩
  · rw [h]
  · rw [h]; exact atomNameOf_extend pool st.atom_names fid hc

theorem getAtomName_stats_some (d : Descriptor) (st : ModuleState) (fid : Nat) :
    ((GetAtomName ⟨some d⟩ st fid).2.1).stats = st.stats := by
  cases h : lookupNat fid st.atom_names <;> simp [GetAtomName, h]

theorem internTrackSet_stats (st : ModuleState) :
    (internTrackSet st).stats = st.stats := by
  cases h : st.track_set_id <;> simp [internTrackSet, h]

theorem internTrackSet_names (st : ModuleState) :
    (internTrackSet st).atom_names = st.atom_names := by
  cases h : st.track_set_id <;> simp [internTrackSet, h]

/-! ## Lemmas about ParseAtom -/

theorem parseAtom_attrs_outcome_const (pool : PoolAndDescriptor)
    (sliceOk : Bool) (st st2 : ModuleState) (nested : List Nat) :
    (ParseAtom pool sliceOk st nested).attrs
      = (ParseAtom pool sliceOk st2 nested).attrs ∧
    (ParseAtom pool sliceOk st nested).outcome
      = (ParseAtom pool sliceOk st2 nested).outcome := by
  cases sliceOk with
  | false => simp [ParseAtom]
  | true =>
    cases hd : pool.descriptor with
    | none => simp [ParseAtom, hd]
    | some d =>
      cases hl : lookupNat (firstFieldId nested) d <;> simp [ParseAtom, hd, hl]

theorem parseAtom_opened (pool : PoolAndDescriptor) (sliceOk : Bool)
    (st : ModuleState) (nested : List Nat) :
    (ParseAtom pool sliceOk st nested).opened
      = if sliceOk then [atomNameOf pool st.atom_names (firstFieldId nested)]
        else [] := by
  cases sliceOk with
  | false => simp [ParseAtom]
  | true =>
    cases hd : pool.descriptor with
    | none => simp [ParseAtom, hd, getAtomName_fst]
    | some d =>
      cases hl : lookupNat (firstFieldId nested) d <;>
        simp [ParseAtom, hd, hl, getAtomName_fst]

theorem parseAtom_names (pool : PoolAndDescriptor) (sliceOk : Bool)
    (st : ModuleState) (nested : List Nat) :
    (ParseAtom pool sliceOk st nested).state.atom_names
      = ((GetAtomName pool st (firstFieldId nested)).2.1).atom_names := by
  cases sliceOk with
  | false => simp [ParseAtom, internTrackSet_names]
  | true =>
    cases hd : pool.descriptor with
    | none => simp [ParseAtom, hd, internTrackSet_names]
    | some d =>
      cases hl : lookupNat (firstFieldId nested) d with
      | none =>
        by_cases hn : firstFieldId nested < 100000 <;>
          simp [ParseAtom, hd, hl, hn, ParseGenericEvent, internTrackSet_names]
      | some fd =>
        simp [ParseAtom, hd, hl, ParseMessage, internTrackSet_names]

/-! ## Claim theorems about ParseAtom and GetAtomName -/

/-- C5: With the catalog available, a second `GetAtomName` call for a
tag returns the first call's name from the cache, with unchanged state
and without consulting the catalog; with the catalog unavailable, a
cache-miss resolution returns the sentinel name, bumps `atom_unknown`,
does not populate the cache, and the next call consults the catalog
again. -/
theorem statsd_c5 (pool : PoolAndDescriptor) (st : ModuleState) (fid : Nat) :
    (∀ d, pool.descriptor = some d →
       GetAtomName pool ((GetAtomName pool st fid).2.1) fid
         = ((GetAtomName pool st fid).1, (GetAtomName pool st fid).2.1, false))
    ∧ (pool.descriptor = none → lookupNat fid st.atom_names = none →
       GetAtomName pool st fid
         = (sentinelAtomName,
            ⟨st.atom_names, bumpUnknown st.stats, st.track_set_id⟩, true)
       ∧ (GetAtomName pool
            ⟨st.atom_names, bumpUnknown st.stats, st.track_set_id⟩ fid).2.2
          = true) := by
  constructor
  · intro d hd
    cases h : lookupNat fid st.atom_names with
    | some n => simp [GetAtomName, h]
    | none =>
      cases hl : lookupNat fid d with
      | some fd =>
        have h2 : lookupNat fid (st.atom_names ++ [(fid, fd.name)])
            = some fd.name := by
          rw [lookupNat_append_none fid _ _ h]
          simp [lookupNat]
        simp [GetAtomName, h, hd, hl, h2]
      | none =>
        have h2 : lookupNat fid (st.atom_names ++ [(fid, "atom_" ++ toString fid)])
            = some ("atom_" ++ toString fid) := by
          rw [lookupNat_append_none fid _ _ h]
          simp [lookupNat]
        simp [GetAtomName, h, hd, hl, h2]
  · intro hd hc
    constructor <;> simp [GetAtomName, hc, hd]

/-- Witness for C5: tag 42 resolves to Foo once and is served from the
cache thereafter; with no descriptor the sentinel is returned, nothing
is cached, and the next call consults the catalog again. -/
theorem statsd_c5_witness :
    (GetAtomName ⟨some [(42, ⟨"Foo", DeclType.tBytes⟩)]⟩
        ((GetAtomName ⟨some [(42, ⟨"Foo", DeclType.tBytes⟩)]⟩ initState 42).2.1) 42
      = ((GetAtomName ⟨some [(42, ⟨"Foo", DeclType.tBytes⟩)]⟩ initState 42).1,
         (GetAtomName ⟨some [(42, ⟨"Foo", DeclType.tBytes⟩)]⟩ initState 42).2.1,
         false))
    ∧ (GetAtomName ⟨none⟩ initState 42
        = (sentinelAtomName,
           ⟨initState.atom_names, bumpUnknown initState.stats,
            initState.track_set_id⟩, true)
       ∧ (GetAtomName ⟨none⟩
            ⟨initState.atom_names, bumpUnknown initState.stats,
             initState.track_set_id⟩ 42).2.2 = true) :=
  ⟨(statsd_c5 ⟨some [(42, ⟨"Foo", DeclType.tBytes⟩)]⟩ initState 42).1 _ rfl,
   (statsd_c5 ⟨none⟩ initState 42).2 rfl (by decide)⟩

/-- C3: With the catalog available and a payload whose first field
number is not resolvable in it, `ParseAtom` bumps `atom_unknown`
exactly once when the field number is below 100000 and not at all when
it is at or above 100000 (the OEM range), and ends normally. -/
theorem statsd_c3 (d : Descriptor) (st : ModuleState) (nested : List Nat)
    (h : lookupNat (firstFieldId nested) d = none) :
    (ParseAtom ⟨some d⟩ true st nested).state.stats.atom_unknown
      = st.stats.atom_unknown + (if firstFieldId nested < 100000 then 1 else 0)
    ∧ (ParseAtom ⟨some d⟩ true st nested).outcome = Outcome.ok := by
  have hstats : ((GetAtomName ⟨some d⟩ st (firstFieldId nested)).2.1).stats
      = st.stats := getAtomName_stats_some d st _
  by_cases hn : firstFieldId nested < 100000 <;>
    simp [ParseAtom, h, hn, ParseGenericEvent, internTrackSet_stats, hstats,
      bumpUnknown]

/-- Witness for C3: an unresolvable first field number 1 (below the
OEM range) bumps the counter once; an unresolvable first field number
100000 (in the OEM range) does not bump it. -/
theorem statsd_c3_witness :
    (lookupNat (firstFieldId [8, 0]) ([] : Descriptor) = none
     ∧ (ParseAtom ⟨some []⟩ true initState [8, 0]).state.stats.atom_unknown
         = initState.stats.atom_unknown
           + (if firstFieldId [8, 0] < 100000 then 1 else 0))
    ∧ (lookupNat (firstFieldId [128, 234, 48, 0]) ([] : Descriptor) = none
     ∧ (ParseAtom ⟨some []⟩ true initState [128, 234, 48, 0]).state.stats.atom_unknown
         = initState.stats.atom_unknown
           + (if firstFieldId [128, 234, 48, 0] < 100000 then 1 else 0)) :=
  ⟨⟨by decide, (statsd_c3 [] initState [8, 0] (by decide)).1⟩,
   ⟨by decide, (statsd_c3 [] initState [128, 234, 48, 0] (by decide)).1⟩⟩

/-- C8: When the attribute-collection scope cannot be opened,
`ParseAtom` aborts the event silently: no attributes, no scope, no
crash, and the statistics afterwards are exactly those name resolution
produced before the scope attempt (in particular unchanged whenever
the catalog is available). -/
theorem statsd_c8 (pool : PoolAndDescriptor) (st : ModuleState)
    (nested : List Nat) :
    (ParseAtom pool false st nested).attrs = []
    ∧ (ParseAtom pool false st nested).opened = []
    ∧ (ParseAtom pool false st nested).outcome = Outcome.ok
    ∧ (ParseAtom pool false st nested).state.stats
        = ((GetAtomName pool st (firstFieldId nested)).2.1).stats
    ∧ (∀ d, pool.descriptor = some d →
        (ParseAtom pool false st nested).state.stats = st.stats) := by
  refine ⟨by simp [ParseAtom], by simp [ParseAtom], by simp [ParseAtom],
    by simp [ParseAtom, internTrackSet_stats], ?_⟩
  intro d hd
  obtain ⟨pd⟩ := pool
  cases hd
  simp [ParseAtom, internTrackSet_stats, getAtomName_stats_some]

/-- Witness for C8: scope open fails on a payload with an available
(empty) catalog: nothing is emitted, nothing counted, no crash. -/
theorem statsd_c8_witness :
    (ParseAtom ⟨some []⟩ false initState [8, 1]).attrs = []
    ∧ (ParseAtom ⟨some []⟩ false initState [8, 1]).opened = []
    ∧ (ParseAtom ⟨some []⟩ false initState [8, 1]).outcome = Outcome.ok
    ∧ (ParseAtom ⟨some []⟩ false initState [8, 1]).state.stats
        = initState.stats :=
  ⟨(statsd_c8 ⟨some []⟩ initState [8, 1]).1,
   (statsd_c8 ⟨some []⟩ initState [8, 1]).2.1,
   (statsd_c8 ⟨some []⟩ initState [8, 1]).2.2.1,
   (statsd_c8 ⟨some []⟩ initState [8, 1]).2.2.2.2 [] rfl⟩

/-- C9: Decoding the same payload twice against the same catalog
(threading the module state, so the second run sees the first run's
name cache) emits identical attributes, opens identically named
scopes, and ends identically, on both the schema-resolved and the
generic-inference path. -/
theorem statsd_c9 (pool : PoolAndDescriptor) (sliceOk : Bool)
    (st : ModuleState) (nested : List Nat) :
    (ParseAtom pool sliceOk (ParseAtom pool sliceOk st nested).state nested).attrs
      = (ParseAtom pool sliceOk st nested).attrs
    ∧ (ParseAtom pool sliceOk (ParseAtom pool sliceOk st nested).state nested).opened
      = (ParseAtom pool sliceOk st nested).opened
    ∧ (ParseAtom pool sliceOk (ParseAtom pool sliceOk st nested).state nested).outcome
      = (ParseAtom pool sliceOk st nested).outcome := by
  refine ⟨(parseAtom_attrs_outcome_const pool sliceOk _ st nested).1, ?_,
    (parseAtom_attrs_outcome_const pool sliceOk _ st nested).2⟩
  rw [parseAtom_opened, parseAtom_opened, parseAtom_names, atomNameOf_after]

/-- C1: With the catalog root type missing, `ParseAtom` on a payload
does bump `atom_unknown` once and does open exactly one scope named
with the sentinel string, but it then dereferences the absent
descriptor (statsd_module.cc:300) and crashes instead of degrading to
generic inference: no attributes are ever emitted on this path. -/
theorem statsd_c1_bug :
    (∀ st nested, (ParseAtom ⟨none⟩ true st nested).outcome = Outcome.crash
       ∧ (ParseAtom ⟨none⟩ true st nested).attrs = [])
    ∧ ParseAtom ⟨none⟩ true initState [8, 1]
        = ⟨⟨[], ⟨0, 1⟩, some 0⟩, [sentinelAtomName], [], Outcome.crash⟩ := by
  refine ⟨fun st nested => ⟨?_, ?_⟩, by decide⟩ <;> simp [ParseAtom]

/-! ## Lemmas about the generic field inferencer -/

theorem genericArgsGo_length (fuel : Nat) : ∀ bs : List Nat,
    (genericArgsGo fuel bs).length = (fieldsOfGo fuel bs).length := by
  induction fuel with
  | zero => intro bs; simp [genericArgsGo, fieldsOfGo]
  | succ n ih =>
    intro bs
    cases hr : readField bs with
    | none => simp [genericArgsGo, fieldsOfGo, hr]
    | some fr =>
      obtain ⟨f, rest⟩ := fr
      simp [genericArgsGo, fieldsOfGo, hr, ih]

theorem genericArgsGo_mem (fuel : Nat) : ∀ (bs : List Nat) (e : Arg),
    e ∈ genericArgsGo fuel bs →
    e.key.flat_key = e.key.key ∧
    ∃ f, f ∈ fieldsOfGo fuel bs ∧
      ((f.wire = WireType.lengthDelimited
          ∧ e.key.key = "field_" ++ toString f.id
          ∧ e.value = Variadic.bytes f.payload)
       ∨ (f.wire = WireType.varint
          ∧ e.key.key = "field_" ++ toString f.id
          ∧ e.value = Variadic.integer (asInt64 f.value))
       ∨ (f.wire = WireType.fixed32
          ∧ e.key.key = "field_" ++ toString f.id ++ "_assuming_float"
          ∧ e.value = Variadic.real (FloatRepr.ofF32Bits f.value))
       ∨ (f.wire = WireType.fixed64
          ∧ e.key.key = "field_" ++ toString f.id ++ "_assuming_double"
          ∧ e.value = Variadic.real (FloatRepr.ofF64Bits f.value))) := by
  induction fuel with
  | zero => intro bs e he; simp [genericArgsGo] at he
  | succ n ih =>
    intro bs e he
    cases hr : readField bs with
    | none => simp [genericArgsGo, hr] at he
    | some fr =>
      obtain ⟨f, rest⟩ := fr
      simp only [genericArgsGo, hr] at he
      rcases List.mem_cons.mp he with hhead | htail
      · refine ⟨?_, f, ?_, ?_⟩
        · cases hw : f.wire <;> simp [hhead, hw]
        · simp [fieldsOfGo, hr]
        · cases hw : f.wire with
          | varint => exact Or.inr (Or.inl ⟨rfl, by simp [hhead, hw], by simp [hhead, hw]⟩)
          | fixed64 =>
            exact Or.inr (Or.inr (Or.inr ⟨rfl, by simp [hhead, hw], by simp [hhead, hw]⟩))
          | lengthDelimited => exact Or.inl ⟨rfl, by simp [hhead, hw], by simp [hhead, hw]⟩
          | fixed32 =>
            exact Or.inr (Or.inr (Or.inl ⟨rfl, by simp [hhead, hw], by simp [hhead, hw]⟩))
      · obtain ⟨hfk, f2, hmem, hcase⟩ := ih rest e htail
        refine ⟨hfk, f2, ?_, hcase⟩
        simp only [fieldsOfGo, hr]
        exact List.mem_cons_of_mem f hmem

/-- C4: Every attribute the generic field inferencer emits has
`flat_key` equal to `key` and comes from one walked field, named and
typed deterministically by wire type alone: `field_N` with the raw
bytes for a length-delimited field, `field_N` with the 64-bit signed
reinterpretation for a varint field, `field_N_assuming_float` with a
double widened from the 32-bit float bits for a 4-byte fixed field,
and `field_N_assuming_double` with a double read from the 64 bits for
an 8-byte fixed field. -/
theorem statsd_c4 (bs : List Nat) (e : Arg)
    (he : e ∈ (ParseGenericEvent bs).2) :
    e.key.flat_key = e.key.key ∧
    ∃ f, f ∈ fieldsOf bs ∧
      ((f.wire = WireType.lengthDelimited
          ∧ e.key.key = "field_" ++ toString f.id
          ∧ e.value = Variadic.bytes f.payload)
       ∨ (f.wire = WireType.varint
          ∧ e.key.key = "field_" ++ toString f.id
          ∧ e.value = Variadic.integer (asInt64 f.value))
       ∨ (f.wire = WireType.fixed32
          ∧ e.key.key = "field_" ++ toString f.id ++ "_assuming_float"
          ∧ e.value = Variadic.real (FloatRepr.ofF32Bits f.value))
       ∨ (f.wire = WireType.fixed64
          ∧ e.key.key = "field_" ++ toString f.id ++ "_assuming_double"
          ∧ e.value = Variadic.real (FloatRepr.ofF64Bits f.value))) :=
  genericArgsGo_mem (bs.length + 1) bs e he

/-- The concrete input for the C4 witness: field 7 length-delimited
with payload bytes `[1, 2]`, then field 3 fixed32 with the bits of the
32-bit float 1.0. -/
def c4bytes : List Nat := [58, 2, 1, 2, 29, 0, 0, 128, 63]

/-- The first attribute emitted on `c4bytes`. -/
def c4arg : Arg := ⟨⟨"field_7", "field_7"⟩, Variadic.bytes [1, 2]⟩

/-- Witness for C4 at `c4bytes` and its first emitted attribute. -/
theorem statsd_c4_witness :
    c4arg ∈ (ParseGenericEvent c4bytes).2
    ∧ (c4arg.key.flat_key = c4arg.key.key ∧
       ∃ f, f ∈ fieldsOf c4bytes ∧
         ((f.wire = WireType.lengthDelimited
             ∧ c4arg.key.key = "field_" ++ toString f.id
             ∧ c4arg.value = Variadic.bytes f.payload)
          ∨ (f.wire = WireType.varint
             ∧ c4arg.key.key = "field_" ++ toString f.id
             ∧ c4arg.value = Variadic.integer (asInt64 f.value))
          ∨ (f.wire = WireType.fixed32
             ∧ c4arg.key.key = "field_" ++ toString f.id ++ "_assuming_float"
             ∧ c4arg.value = Variadic.real (FloatRepr.ofF32Bits f.value))
          ∨ (f.wire = WireType.fixed64
             ∧ c4arg.key.key = "field_" ++ toString f.id ++ "_assuming_double"
             ∧ c4arg.value = Variadic.real (FloatRepr.ofF64Bits f.value)))) :=
  ⟨by decide, statsd_c4 c4bytes c4arg (by decide)⟩

/-- C7: The generic field inferencer returns a success status on every
input byte span, and yields exactly one attribute per field the walker
could decode before stopping (a partial set on malformed or truncated
input, never a failure). -/
theorem statsd_c7 (bs : List Nat) :
    (ParseGenericEvent bs).1 = Status.ok
    ∧ (ParseGenericEvent bs).2.length = (fieldsOf bs).length :=
  ⟨rfl, genericArgsGo_length (bs.length + 1) bs⟩

end StatsdModule
